import Mathlib

/-!
Verification of the figtree-cli style compression / chunking / result
combination pipeline (src/unnamed/part_000).

The embedding models JavaScript values with the inductive `JsVal`:
objects are association lists in insertion order (JS string-keyed
objects preserve insertion order, and the code never uses integer-like
keys on the objects it serializes), numbers are integers (every number
the pipeline manipulates or that the claims mention is an integer;
`JSON.stringify`/`toString` of an integral double is its decimal
notation), and the absent/`undefined` value is explicit.  Property
access on a nullish base (which would throw in JS) is modeled as
`undefined`; the upstream interface (spec section 6) guarantees the
styles payload is parsed JSON, where this does not occur.
-/

namespace Figtree

/-- Model of a JavaScript runtime value as used by the pipeline. -/
inductive JsVal where
  | undef : JsVal
  | null : JsVal
  | bool : Bool → JsVal
  | num : Int → JsVal
  | str : String → JsVal
  | arr : List JsVal → JsVal
  | obj : List (String × JsVal) → JsVal

/-- Property read `o[k]` / `o?.[k]`: lookup in an object, `undefined`
otherwise (JS returns `undefined` for missing keys and for property
access on primitives; access on nullish values, which throws, is also
modeled as `undefined`). -/
def jget : JsVal → String → JsVal
  | JsVal.obj fs, k => ((fs.find? (fun p => p.1 == k)).map (fun p => p.2)).getD JsVal.undef
  | _, _ => JsVal.undef

/-- JS truthiness: `undefined`, `null`, `false`, `0`, `""` are falsy;
objects and arrays (even empty ones) are truthy. -/
def truthy : JsVal → Bool
  | JsVal.undef => false
  | JsVal.null => false
  | JsVal.bool b => b
  | JsVal.num n => n != 0
  | JsVal.str s => s != ""
  | JsVal.arr _ => true
  | JsVal.obj _ => true

/-- JS `a || b`. -/
def jsOr (a b : JsVal) : JsVal := if truthy a then a else b

/-- `v === undefined`. -/
def isUndef : JsVal → Bool
  | JsVal.undef => true
  | _ => false

/-- `v === null`. -/
def isNullJ : JsVal → Bool
  | JsVal.null => true
  | _ => false

/-- Strict equality `v === "lit"` against a string literal: true only
when `v` is that string. -/
def eqStrJ : JsVal → String → Bool
  | JsVal.str s, t => s == t
  | _, _ => false

/-- `v?.startsWith(p)` coerced to a boolean guard: true only when `v`
is a string with prefix `p` (a non-string would give `undefined` or
throw in JS; the guard is then not taken). -/
def strStartsWith (v : JsVal) (p : String) : Bool :=
  match v with
  | JsVal.str s => p.isPrefixOf s
  | _ => false

/-- Assignment `o[k] = v` on an association list: an existing key keeps
its position and gets the new value, a new key is appended (JS
insertion-order semantics). -/
def setField : List (String × JsVal) → String → JsVal → List (String × JsVal)
  | [], k, v => [(k, v)]
  | (k', v') :: rest, k, v =>
      if k' == k then (k', v) :: rest else (k', v') :: setField rest k v

/-- Assignment `o[k] = v` (no-op on non-objects, which cannot occur on
the objects the pipeline builds). -/
def setKey : JsVal → String → JsVal → JsVal
  | JsVal.obj fs, k, v => JsVal.obj (setField fs k v)
  | o, _, _ => o

/-- A run of conditional assignments `if (cond) o[k] = v`, executed in
list order (mirrors the sequences of guarded assignments in the
source). -/
def condAssign (o : JsVal) (ts : List (Bool × String × JsVal)) : JsVal :=
  ts.foldl (fun acc t => if t.1 then setKey acc t.2.1 t.2.2 else acc) o

/-- Guarded `.map` over a style-kind entry: the source runs
`if (styles.styles?.kind) { ... styles.styles.kind.map(...) ... }`, so a
falsy entry leaves the category empty; arrays (the only truthy values
with `.map`) are processed. -/
def mapIfArray (v : JsVal) (f : List JsVal → List JsVal) : List JsVal :=
  match v with
  | JsVal.arr xs => f xs
  | _ => []

/-! ### String length and token estimation -/

/-- UTF-16 size of a character (JS `String.prototype.length` counts
UTF-16 code units). -/
def csize (c : Char) : Nat := if c.toNat < 65536 then 1 else 2

/-- JS string `.length` (UTF-16 code units). -/
def utf16Len (s : String) : Nat := (s.data.map csize).sum

/-- `countTokens(text) = Math.ceil(text.length / 4)` (part_000 line 498). -/
def countTokens (text : String) : Nat := (utf16Len text + 3) / 4

/-! ### JSON.stringify -/

/-- One hex digit, lowercase (as produced by `JSON.stringify` escapes). -/
def hexDigit (n : Nat) : Char :=
  if n < 10 then Char.ofNat (48 + n) else Char.ofNat (87 + n)

/-- Four-digit lowercase hex, for `\uXXXX` escapes. -/
def hex4 (n : Nat) : String :=
  String.mk [hexDigit (n / 4096 % 16), hexDigit (n / 256 % 16),
             hexDigit (n / 16 % 16), hexDigit (n % 16)]

/-- JSON string-character quoting as in `JSON.stringify`. -/
def quoteChar (c : Char) : String :=
  if c == '\"' then "\\\""
  else if c == '\\' then "\\\\"
  else if c == '\x08' then "\\b"
  else if c == '\x0c' then "\\f"
  else if c == '\n' then "\\n"
  else if c == '\x0d' then "\\r"
  else if c == '\t' then "\\t"
  else if c.toNat < 32 then "\\u" ++ hex4 c.toNat
  else String.singleton c

/-- `JSON.stringify` of a string value. -/
def quoteStr (s : String) : String :=
  "\"" ++ s.data.foldl (fun acc c => acc ++ quoteChar c) "" ++ "\""

/-- Join with a separator (JS `Array.prototype.join`). -/
def joinSep (sep : String) : List String → String
  | [] => ""
  | [s] => s
  | s :: rest => s ++ sep ++ joinSep sep rest

/-- Comma-join, the separator used by compact `JSON.stringify`. -/
def joinComma : List String → String
  | [] => ""
  | [s] => s
  | s :: rest => s ++ "," ++ joinComma rest

mutual
/-- Compact `JSON.stringify(v)`.  `undefined` only ever occurs as an
array element here, where JS serializes it as `null`; object entries
whose value is `undefined` are skipped. -/
def jserialize : JsVal → String
  | JsVal.undef => "null"
  | JsVal.null => "null"
  | JsVal.bool b => if b then "true" else "false"
  | JsVal.num n => toString n
  | JsVal.str s => quoteStr s
  | JsVal.arr xs => "[" ++ joinComma (jitems xs) ++ "]"
  | JsVal.obj fs => "\x7b" ++ joinComma (jentries fs) ++ "\x7d"

/-- Serialized array elements. -/
def jitems : List JsVal → List String
  | [] => []
  | x :: xs => jserialize x :: jitems xs

/-- Serialized object entries, skipping `undefined`-valued keys. -/
def jentries : List (String × JsVal) → List String
  | [] => []
  | (_, JsVal.undef) :: rest => jentries rest
  | (k, v) :: rest => (quoteStr k ++ ":" ++ jserialize v) :: jentries rest
end

mutual
/-- Pretty `JSON.stringify(v, null, 2)` at the given current indent. -/
def jserializeP : String → JsVal → String
  | _, JsVal.undef => "null"
  | _, JsVal.null => "null"
  | _, JsVal.bool b => if b then "true" else "false"
  | _, JsVal.num n => toString n
  | _, JsVal.str s => quoteStr s
  | ind, JsVal.arr xs =>
      let items := jitemsP (ind ++ "  ") xs
      if items = [] then "[]"
      else "[\n" ++ ind ++ "  " ++ joinSep (",\n" ++ ind ++ "  ") items ++ "\n" ++ ind ++ "]"
  | ind, JsVal.obj fs =>
      let es := jentriesP (ind ++ "  ") fs
      if es = [] then "\x7b\x7d"
      else "\x7b\n" ++ ind ++ "  " ++ joinSep (",\n" ++ ind ++ "  ") es ++ "\n" ++ ind ++ "\x7d"

/-- Pretty-serialized array elements. -/
def jitemsP : String → List JsVal → List String
  | _, [] => []
  | ind, x :: xs => jserializeP ind x :: jitemsP ind xs

/-- Pretty-serialized object entries (key, colon, space, value),
skipping `undefined`-valued keys. -/
def jentriesP : String → List (String × JsVal) → List String
  | _, [] => []
  | ind, (_, JsVal.undef) :: rest => jentriesP ind rest
  | ind, (k, v) :: rest => (quoteStr k ++ ": " ++ jserializeP ind v) :: jentriesP ind rest
end

/-- Top-level `JSON.stringify(v, null, 2)`. -/
def jserializePretty (v : JsVal) : String := jserializeP "" v

/-! ### Style Normalizer (`compressStylesForAI`, part_000 lines 921-1160) -/

/-- The guarded paint-property assignments of `compressStylesForAI`
for one fill style, in source order (part_000 lines 940-998).
`v` is `style.values`. -/
def paintSets (v : JsVal) : List (Bool × String × JsVal) :=
  [(!isUndef (jget v "opacity"), "opacity", jget v "opacity"),
   (truthy (jget v "blendMode"), "blendMode", jget v "blendMode"),
   -- SOLID paint properties
   (eqStrJ (jget v "type") "SOLID" && truthy (jget v "color"), "color", jget v "color"),
   (eqStrJ (jget v "type") "SOLID" && truthy (jget v "hex"), "hex", jget v "hex"),
   (eqStrJ (jget v "type") "SOLID" && truthy (jget v "css"), "css", jget v "css"),
   -- GRADIENT_* paint properties
   (strStartsWith (jget v "type") "GRADIENT_" && truthy (jget v "gradientHandlePositions"),
      "gradientHandlePositions", jget v "gradientHandlePositions"),
   (strStartsWith (jget v "type") "GRADIENT_" && truthy (jget v "gradientStops"),
      "gradientStops", jget v "gradientStops"),
   (strStartsWith (jget v "type") "GRADIENT_" && truthy (jget v "gradient"),
      "gradient", jget v "gradient"),
   -- IMAGE paint properties
   (eqStrJ (jget v "type") "IMAGE" && truthy (jget v "scaleMode"), "scaleMode", jget v "scaleMode"),
   (eqStrJ (jget v "type") "IMAGE" && truthy (jget v "imageTransform"),
      "imageTransform", jget v "imageTransform"),
   (eqStrJ (jget v "type") "IMAGE" && !isUndef (jget v "scalingFactor"),
      "scalingFactor", jget v "scalingFactor"),
   (eqStrJ (jget v "type") "IMAGE" && !isUndef (jget v "rotation"), "rotation", jget v "rotation"),
   (eqStrJ (jget v "type") "IMAGE" && truthy (jget v "imageRef"), "imageRef", jget v "imageRef"),
   (eqStrJ (jget v "type") "IMAGE" && truthy (jget v "filters"), "filters", jget v "filters"),
   (eqStrJ (jget v "type") "IMAGE" && truthy (jget v "gifRef"), "gifRef", jget v "gifRef"),
   -- PATTERN paint properties
   (eqStrJ (jget v "type") "PATTERN" && truthy (jget v "sourceNodeId"),
      "sourceNodeId", jget v "sourceNodeId"),
   (eqStrJ (jget v "type") "PATTERN" && truthy (jget v "tileType"), "tileType", jget v "tileType"),
   (eqStrJ (jget v "type") "PATTERN" && !isUndef (jget v "scalingFactor"),
      "scalingFactor", jget v "scalingFactor"),
   (eqStrJ (jget v "type") "PATTERN" && truthy (jget v "spacing"), "spacing", jget v "spacing"),
   (eqStrJ (jget v "type") "PATTERN" && truthy (jget v "horizontalAlignment"),
      "horizontalAlignment", jget v "horizontalAlignment"),
   (eqStrJ (jget v "type") "PATTERN" && truthy (jget v "verticalAlignment"),
      "verticalAlignment", jget v "verticalAlignment")]

/-- One canonical color token: the paint-building callback of
`compressStylesForAI` (part_000 lines 935-1007), including the
fallback step at lines 1000-1004. -/
def mkPaint (style : JsVal) : JsVal :=
  let v := jget style "values"
  let base := JsVal.obj [("name", jget style "name"),
                         ("type", jsOr (jget v "type") (JsVal.str "unknown"))]
  let paint := condAssign base (paintSets v)
  if !truthy (jget paint "color") && !truthy (jget paint "gradientStops")
      && !truthy (jget paint "imageRef") then
    condAssign paint
      [(truthy (jget v "hex"), "fallbackHex", jget v "hex"),
       (truthy (jget v "css"), "fallbackCss", jget v "css")]
  else paint

/-- The color filter (part_000 lines 1008-1011):
`paint.type !== 'unknown' || paint.fallbackHex || paint.fallbackCss`. -/
def keepPaint (paint : JsVal) : Bool :=
  !eqStrJ (jget paint "type") "unknown"
    || truthy (jget paint "fallbackHex") || truthy (jget paint "fallbackCss")

/-- One canonical typography token (part_000 lines 1016-1023): every
field defaulted through `||`. -/
def mkTypo (style : JsVal) : JsVal :=
  let v := jget style "values"
  JsVal.obj [("name", jget style "name"),
             ("fontSize", jsOr (jget v "fontSize") (JsVal.num 16)),
             ("fontFamily", jsOr (jget v "fontFamily") (JsVal.str "system")),
             ("fontWeight", jsOr (jget v "fontWeight") (JsVal.str "normal")),
             ("lineHeight", jsOr (jget v "lineHeight") (JsVal.str "normal")),
             ("letterSpacing", jsOr (jget v "letterSpacing") (JsVal.str "normal"))]

/-- The guarded common and type-specific effect-property assignments
(part_000 lines 1046-1108) for the first effect `e0` of a style. -/
def effectPropSets (e0 : JsVal) : List (Bool × String × JsVal) :=
  [(!isUndef (jget e0 "radius"), "radius", jget e0 "radius"),
   (truthy (jget e0 "blendMode"), "blendMode", jget e0 "blendMode"),
   (!isUndef (jget e0 "visible"), "visible", jget e0 "visible"),
   -- shadow-specific (INNER_SHADOW, DROP_SHADOW)
   ((eqStrJ (jget e0 "type") "INNER_SHADOW" || eqStrJ (jget e0 "type") "DROP_SHADOW")
      && truthy (jget e0 "color"), "color", jget e0 "color"),
   ((eqStrJ (jget e0 "type") "INNER_SHADOW" || eqStrJ (jget e0 "type") "DROP_SHADOW")
      && truthy (jget e0 "offset"), "offset", jget e0 "offset"),
   ((eqStrJ (jget e0 "type") "INNER_SHADOW" || eqStrJ (jget e0 "type") "DROP_SHADOW")
      && !isUndef (jget e0 "spread"), "spread", jget e0 "spread"),
   ((eqStrJ (jget e0 "type") "INNER_SHADOW" || eqStrJ (jget e0 "type") "DROP_SHADOW")
      && !isUndef (jget e0 "showShadowBehindNode"),
      "showShadowBehindNode", jget e0 "showShadowBehindNode"),
   -- blur-specific (LAYER_BLUR, BACKGROUND_BLUR)
   ((eqStrJ (jget e0 "type") "LAYER_BLUR" || eqStrJ (jget e0 "type") "BACKGROUND_BLUR")
      && truthy (jget e0 "blurType"), "blurType", jget e0 "blurType"),
   ((eqStrJ (jget e0 "type") "LAYER_BLUR" || eqStrJ (jget e0 "type") "BACKGROUND_BLUR")
      && !isUndef (jget e0 "startRadius"), "startRadius", jget e0 "startRadius"),
   ((eqStrJ (jget e0 "type") "LAYER_BLUR" || eqStrJ (jget e0 "type") "BACKGROUND_BLUR")
      && truthy (jget e0 "startOffset"), "startOffset", jget e0 "startOffset"),
   ((eqStrJ (jget e0 "type") "LAYER_BLUR" || eqStrJ (jget e0 "type") "BACKGROUND_BLUR")
      && truthy (jget e0 "endOffset"), "endOffset", jget e0 "endOffset"),
   -- noise-specific
   (eqStrJ (jget e0 "type") "NOISE" && !isUndef (jget e0 "noiseSize"),
      "noiseSize", jget e0 "noiseSize"),
   (eqStrJ (jget e0 "type") "NOISE" && truthy (jget e0 "noiseType"),
      "noiseType", jget e0 "noiseType"),
   (eqStrJ (jget e0 "type") "NOISE" && !isUndef (jget e0 "density"), "density", jget e0 "density"),
   (eqStrJ (jget e0 "type") "NOISE" && truthy (jget e0 "secondaryColor"),
      "secondaryColor", jget e0 "secondaryColor"),
   (eqStrJ (jget e0 "type") "NOISE" && !isUndef (jget e0 "opacity"), "opacity", jget e0 "opacity"),
   -- texture-specific
   (eqStrJ (jget e0 "type") "TEXTURE" && !isUndef (jget e0 "noiseSize"),
      "noiseSize", jget e0 "noiseSize"),
   (eqStrJ (jget e0 "type") "TEXTURE" && !isUndef (jget e0 "clipToShape"),
      "clipToShape", jget e0 "clipToShape")]

/-- All guarded effect assignments: the property assignments above
followed by the `allEffects` assignment (part_000 lines 1110-1113),
which keeps the whole original effect list when it has more than one
element. -/
def effectSets (e0 : JsVal) (rest : List JsVal) : List (Bool × String × JsVal) :=
  effectPropSets e0 ++ [(!rest.isEmpty, "allEffects", JsVal.arr (e0 :: rest))]

/-- One effect-mapping step (part_000 lines 1029-1116): the callback
returns `null` when `style.values.effects` is missing, not an array,
or empty; otherwise it builds the token from the first effect. -/
def mkEffect (style : JsVal) : JsVal :=
  match jget (jget style "values") "effects" with
  | JsVal.arr (e0 :: rest) =>
      condAssign
        (JsVal.obj [("name", jget style "name"),
                    ("type", jsOr (jget e0 "type") (JsVal.str "unknown"))])
        (effectSets e0 rest)
  | _ => JsVal.null

/-- The effect filter (part_000 line 1117):
`effect !== null && effect.type !== 'unknown'`. -/
def keepEffect (e : JsVal) : Bool :=
  !isNullJ e && !eqStrJ (jget e "type") "unknown"

/-- Whether a style has a usable (nonempty array) `values.effects`
list — the negation of the early-return guard at part_000 lines
1031-1037. -/
def hasEffects (s : JsVal) : Bool :=
  match jget (jget s "values") "effects" with
  | JsVal.arr (_ :: _) => true
  | _ => false

/-- One spacing (grid) token (part_000 lines 1123-1145): the source
guard is `style.values?.grids && style.values.grids.length > 0`, i.e.
a nonempty array (a truthy non-array with positive `.length` cannot
arise from parsed style JSON). -/
def mkGrid (style : JsVal) : JsVal :=
  let base := JsVal.obj [("name", jget style "name"), ("type", JsVal.str "grid")]
  match jget (jget style "values") "grids" with
  | JsVal.arr (g0 :: _) =>
      condAssign base
        [(truthy (jget g0 "pattern"), "pattern", jget g0 "pattern"),
         (!isUndef (jget g0 "sectionSize"), "sectionSize", jget g0 "sectionSize"),
         (!isUndef (jget g0 "gutterSize"), "gutterSize", jget g0 "gutterSize"),
         (!isUndef (jget g0 "offset"), "offset", jget g0 "offset"),
         (!isUndef (jget g0 "count"), "count", jget g0 "count"),
         (truthy (jget g0 "alignment"), "alignment", jget g0 "alignment"),
         (truthy (jget g0 "color"), "color", jget g0 "color")]
  | _ => base

/-- The spacing filter (part_000 line 1147):
`grid.pattern || grid.sectionSize !== undefined`. -/
def keepGrid (g : JsVal) : Bool :=
  truthy (jget g "pattern") || !isUndef (jget g "sectionSize")

/-- The `summary` object: the full set built by `compressStylesForAI`
carries `originalFileSize` (lines 1151-1157); a chunk built by
`chunkStyles` carries `chunkNumber` instead (lines 534-540, 553-559). -/
inductive Summary where
  | full (totalColors totalTypography totalEffects totalSpacing originalFileSize : Nat)
  | chunked (totalColors totalTypography totalEffects totalSpacing chunkNumber : Nat)
deriving DecidableEq

/-- Whether a summary carries the `chunkNumber` field. -/
def Summary.hasChunkNumber : Summary → Bool
  | Summary.full _ _ _ _ _ => false
  | Summary.chunked _ _ _ _ _ => true

/-- A compressed style set (or chunk): the object
`{colors, typography, effects, spacing, summary}` in its JS key
insertion order. -/
structure StyleSet where
  colors : List JsVal
  typography : List JsVal
  effects : List JsVal
  spacing : List JsVal
  summary : Summary

/-- `compressStylesForAI(styles)` (part_000 lines 921-1160). -/
def compressStylesForAI (styles : JsVal) : StyleSet :=
  let ss := jget styles "styles"
  let colors := mapIfArray (jget ss "fill") (fun xs => (xs.map mkPaint).filter keepPaint)
  let typography := mapIfArray (jget ss "text") (fun xs => xs.map mkTypo)
  let effects := mapIfArray (jget ss "effect") (fun xs => (xs.map mkEffect).filter keepEffect)
  let spacing := mapIfArray (jget ss "grid") (fun xs => (xs.map mkGrid).filter keepGrid)
  { colors := colors, typography := typography, effects := effects, spacing := spacing,
    summary := Summary.full colors.length typography.length effects.length spacing.length
      (utf16Len (jserialize styles)) }

/-! ### Token Estimator and Chunk Planner (part_000 lines 497-564) -/

/-- JSON value of a summary object, key order as assigned in source. -/
def summaryToJson : Summary → JsVal
  | Summary.full tc tt te ts ofs =>
      JsVal.obj [("totalColors", JsVal.num tc), ("totalTypography", JsVal.num tt),
                 ("totalEffects", JsVal.num te), ("totalSpacing", JsVal.num ts),
                 ("originalFileSize", JsVal.num ofs)]
  | Summary.chunked tc tt te ts cn =>
      JsVal.obj [("totalColors", JsVal.num tc), ("totalTypography", JsVal.num tt),
                 ("totalEffects", JsVal.num te), ("totalSpacing", JsVal.num ts),
                 ("chunkNumber", JsVal.num cn)]

/-- JSON value of a full style set / finalized chunk. -/
def setToJson (s : StyleSet) : JsVal :=
  JsVal.obj [("colors", JsVal.arr s.colors), ("typography", JsVal.arr s.typography),
             ("effects", JsVal.arr s.effects), ("spacing", JsVal.arr s.spacing),
             ("summary", summaryToJson s.summary)]

/-- `shouldChunkStyles(compressedStyles, maxTokens)` (part_000 lines
503-506; JS default `maxTokens = 100000`). -/
def shouldChunkStyles (compressedStyles : StyleSet) (maxTokens : Nat) : Bool :=
  decide (maxTokens < countTokens (jserialize (setToJson compressedStyles)))

/-- The four categories, in the fixed iteration order of
`chunkStyles` (part_000 line 519). -/
inductive Category where
  | colors
  | typography
  | effects
  | spacing
deriving DecidableEq

/-- The working chunk `{colors: [], typography: [], effects: [],
spacing: []}` while it has no `summary` yet: exactly its four arrays
(this is the shape serialized by the in-loop budget check). -/
structure WorkingChunk where
  colors : List JsVal
  typography : List JsVal
  effects : List JsVal
  spacing : List JsVal

/-- The fresh working chunk (part_000 lines 520 and 545). -/
def emptyWC : WorkingChunk := ⟨[], [], [], []⟩

/-- `currentChunk[category]` read. -/
def getCatW : WorkingChunk → Category → List JsVal
  | w, Category.colors => w.colors
  | w, Category.typography => w.typography
  | w, Category.effects => w.effects
  | w, Category.spacing => w.spacing

/-- `currentChunk[category] = xs` write. -/
def setCatW : WorkingChunk → Category → List JsVal → WorkingChunk
  | w, Category.colors, xs => { w with colors := xs }
  | w, Category.typography, xs => { w with typography := xs }
  | w, Category.effects, xs => { w with effects := xs }
  | w, Category.spacing, xs => { w with spacing := xs }

/-- `compressed[category]` read on a style set. -/
def getCatS : StyleSet → Category → List JsVal
  | s, Category.colors => s.colors
  | s, Category.typography => s.typography
  | s, Category.effects => s.effects
  | s, Category.spacing => s.spacing

/-- JSON value of the working chunk (no `summary` key yet). -/
def wcToJson (w : WorkingChunk) : JsVal :=
  JsVal.obj [("colors", JsVal.arr w.colors), ("typography", JsVal.arr w.typography),
             ("effects", JsVal.arr w.effects), ("spacing", JsVal.arr w.spacing)]

/-- Attaching the per-chunk summary (part_000 lines 534-540 and
553-559) to a finished working chunk. -/
def finalizeChunk (w : WorkingChunk) (chunkNumber : Nat) : StyleSet :=
  { colors := w.colors, typography := w.typography, effects := w.effects,
    spacing := w.spacing,
    summary := Summary.chunked w.colors.length w.typography.length w.effects.length
      w.spacing.length chunkNumber }

/-- The mutable state of the greedy loop: the finished chunks and the
accumulating working chunk. -/
structure ChunkState where
  chunks : List StyleSet
  current : WorkingChunk

/-- The body of the inner item loop (part_000 lines 525-548): push the
item, re-serialize the whole working chunk, and on overflow pop the
just-pushed item (restoring the pre-push chunk), finalize, and start a
new working chunk holding only that item. -/
def stepItem (budget : Nat) (cat : Category) (st : ChunkState) (item : JsVal) : ChunkState :=
  let pushed := setCatW st.current cat (getCatW st.current cat ++ [item])
  if budget < countTokens (jserialize (wcToJson pushed)) then
    { chunks := st.chunks ++ [finalizeChunk st.current (st.chunks.length + 1)],
      current := setCatW emptyWC cat [item] }
  else
    { chunks := st.chunks, current := pushed }

/-- One iteration of the outer category loop (part_000 lines 522-549). -/
def stepCategory (budget : Nat) (compressed : StyleSet) (st : ChunkState)
    (cat : Category) : ChunkState :=
  (getCatS compressed cat).foldl (stepItem budget cat) st

/-- `chunkStyles(styles, maxTokensPerChunk)` (part_000 lines 509-564;
JS default `maxTokensPerChunk = 80000`). -/
def chunkStyles (styles : JsVal) (maxTokensPerChunk : Nat) : List StyleSet :=
  let compressed := compressStylesForAI styles
  if !shouldChunkStyles compressed maxTokensPerChunk then [compressed]
  else
    let st := [Category.colors, Category.typography, Category.effects,
               Category.spacing].foldl (stepCategory maxTokensPerChunk compressed)
      { chunks := [], current := emptyWC }
    -- lines 551-561: add remaining items as final chunk when any array is non-empty
    if st.current.colors.length > 0 || st.current.typography.length > 0
        || st.current.effects.length > 0 || st.current.spacing.length > 0 then
      st.chunks ++ [finalizeChunk st.current (st.chunks.length + 1)]
    else st.chunks

/-! ### JSON.parse

A recursive-descent parser for the JSON grammar, modeling `JSON.parse`.
One deliberate restriction of the embedding: numeric literals are
integers (a fraction or exponent part is rejected), matching the
integer-only `JsVal.num`; every claim settled against this parser uses
integer-valued inputs only. -/

/-- JSON insignificant whitespace (space, tab, LF, CR). -/
def skipWs : List Char → List Char
  | c :: rest =>
      if c == ' ' || c == '\t' || c == '\n' || c == '\x0d' then skipWs rest else c :: rest
  | [] => []

/-- Hex digit value, for `\uXXXX` escapes. -/
def hexVal? (c : Char) : Option Nat :=
  if '0' ≤ c && c ≤ '9' then some (c.toNat - 48)
  else if 'a' ≤ c && c ≤ 'f' then some (c.toNat - 87)
  else if 'A' ≤ c && c ≤ 'F' then some (c.toNat - 70)
  else none

/-- Characters of a JSON string body after the opening quote, with
escape processing; returns the decoded characters and the input after
the closing quote.  Raw control characters are a parse error.  (A
`\u` escape naming a lone UTF-16 surrogate is not representable as a
`Char`; no claim exercises that case.) -/
def parseStrChars : List Char → Option (List Char × List Char)
  | [] => none
  | '\"' :: rest => some ([], rest)
  | '\\' :: e :: rest =>
      if e == '\"' then (parseStrChars rest).map (fun p => ('\"' :: p.1, p.2))
      else if e == '\\' then (parseStrChars rest).map (fun p => ('\\' :: p.1, p.2))
      else if e == '/' then (parseStrChars rest).map (fun p => ('/' :: p.1, p.2))
      else if e == 'b' then (parseStrChars rest).map (fun p => ('\x08' :: p.1, p.2))
      else if e == 'f' then (parseStrChars rest).map (fun p => ('\x0c' :: p.1, p.2))
      else if e == 'n' then (parseStrChars rest).map (fun p => ('\n' :: p.1, p.2))
      else if e == 'r' then (parseStrChars rest).map (fun p => ('\x0d' :: p.1, p.2))
      else if e == 't' then (parseStrChars rest).map (fun p => ('\t' :: p.1, p.2))
      else if e == 'u' then
        match rest with
        | h1 :: h2 :: h3 :: h4 :: rest2 =>
            match hexVal? h1, hexVal? h2, hexVal? h3, hexVal? h4 with
            | some a, some b, some c, some d =>
                (parseStrChars rest2).map
                  (fun p => (Char.ofNat (a * 4096 + b * 256 + c * 16 + d) :: p.1, p.2))
            | _, _, _, _ => none
        | _ => none
      else none
  | c :: rest =>
      if c.toNat < 32 then none
      else (parseStrChars rest).map (fun p => (c :: p.1, p.2))

/-- Leading decimal digits of the input. -/
def takeDigits : List Char → List Char × List Char
  | c :: rest =>
      if '0' ≤ c && c ≤ '9' then
        let p := takeDigits rest
        (c :: p.1, p.2)
      else ([], c :: rest)
  | [] => ([], [])

/-- Digits to a natural number. -/
def digitsToNat (ds : List Char) : Nat :=
  ds.foldl (fun acc c => acc * 10 + (c.toNat - 48)) 0

/-- A JSON integer literal: optional minus, `0` or a nonzero-led digit
run; a following `.`, `e` or `E` (a non-integer literal) is outside
this model and rejected. -/
def parseIntLit (cs : List Char) : Option (Int × List Char) :=
  let sign : Bool := match cs with
    | '-' :: _ => true
    | _ => false
  let cs1 := if sign then cs.drop 1 else cs
  match cs1 with
  | '0' :: rest =>
      (match rest with
       | c :: _ => if c == '.' || c == 'e' || c == 'E' then none
                   else some ((if sign then -0 else 0 : Int), rest)
       | [] => some (0, []))
  | c :: _ =>
      if '1' ≤ c && c ≤ '9' then
        let p := takeDigits cs1
        match p.2 with
        | c2 :: _ => if c2 == '.' || c2 == 'e' || c2 == 'E' then none
                     else some ((if sign then -(digitsToNat p.1 : Int) else digitsToNat p.1), p.2)
        | [] => some ((if sign then -(digitsToNat p.1 : Int) else digitsToNat p.1), [])
      else none
  | [] => none

mutual
/-- A JSON value, fueled recursive descent (fuel bounds nesting depth;
`jsonParse` supplies more fuel than any input can consume). -/
def parseValue : Nat → List Char → Option (JsVal × List Char)
  | 0, _ => none
  | Nat.succ fuel, cs =>
    match skipWs cs with
    | '\x7b' :: rest =>
        (match skipWs rest with
         | '\x7d' :: rest2 => some (JsVal.obj [], rest2)
         | rest2 => parseMembers fuel rest2 [])
    | '[' :: rest =>
        (match skipWs rest with
         | ']' :: rest2 => some (JsVal.arr [], rest2)
         | rest2 => parseElements fuel rest2 [])
    | '\"' :: rest => (parseStrChars rest).map (fun p => (JsVal.str (String.mk p.1), p.2))
    | 't' :: 'r' :: 'u' :: 'e' :: rest => some (JsVal.bool true, rest)
    | 'f' :: 'a' :: 'l' :: 's' :: 'e' :: rest => some (JsVal.bool false, rest)
    | 'n' :: 'u' :: 'l' :: 'l' :: rest => some (JsVal.null, rest)
    | cs' => (parseIntLit cs').map (fun p => (JsVal.num p.1, p.2))

/-- Object members after `{` (input positioned at a key); duplicate
keys keep the first position with the later value, as in JS. -/
def parseMembers : Nat → List Char → List (String × JsVal) → Option (JsVal × List Char)
  | 0, _, _ => none
  | Nat.succ fuel, cs, acc =>
    match skipWs cs with
    | '\"' :: rest =>
        (match parseStrChars rest with
         | some (kcs, rest2) =>
             (match skipWs rest2 with
              | ':' :: rest3 =>
                  (match parseValue fuel rest3 with
                   | some (v, rest4) =>
                       let acc' := setField acc (String.mk kcs) v
                       (match skipWs rest4 with
                        | ',' :: rest5 => parseMembers fuel rest5 acc'
                        | '\x7d' :: rest5 => some (JsVal.obj acc', rest5)
                        | _ => none)
                   | none => none)
              | _ => none)
         | none => none)
    | _ => none

/-- Array elements after `[` (input positioned at a value). -/
def parseElements : Nat → List Char → List JsVal → Option (JsVal × List Char)
  | 0, _, _ => none
  | Nat.succ fuel, cs, acc =>
    match parseValue fuel cs with
    | some (v, rest) =>
        (match skipWs rest with
         | ',' :: rest2 => parseElements fuel rest2 (acc ++ [v])
         | ']' :: rest2 => some (JsVal.arr (acc ++ [v]), rest2)
         | _ => none)
    | none => none
end

/-- `JSON.parse(s)`: parse one value and require only whitespace after
it; `none` models a thrown `SyntaxError`. -/
def jsonParse (s : String) : Option JsVal :=
  match parseValue (s.data.length + 1) s.data with
  | some (v, rest) => if skipWs rest = [] then some v else none
  | none => none

/-! ### Result Combiner (`combineChunkedResults`, part_000 lines 805-856) -/

/-- Own enumerable properties of a value, for `Object.assign`: object
entries; index properties for arrays and strings; none for other
primitives. -/
def ownEntries : JsVal → List (String × JsVal)
  | JsVal.obj fs => fs
  | JsVal.arr xs => xs.enum.map (fun p => (toString p.1, p.2))
  | JsVal.str s => s.data.enum.map (fun p => (toString p.1, JsVal.str (String.singleton p.2)))
  | _ => []

/-- `Object.assign(target, source)` (shallow merge, later keys
overwrite). -/
def objAssign (target source : JsVal) : JsVal :=
  (ownEntries source).foldl (fun t kv => setKey t kv.1 kv.2) target

/-- Literal-prefix match: consume `lit` from the front of `cs`. -/
def dropLit : List Char → List Char → Option (List Char)
  | [], cs => some cs
  | l :: ls, c :: cs => if c == l then dropLit ls cs else none
  | _ :: _, [] => none

/-- JS regex `\s` for the whitespace that can separate
`module.exports`, `=` and the object literal. -/
def isJsWs (c : Char) : Bool :=
  c == ' ' || c == '\t' || c == '\n' || c == '\x0d' || c == '\x0b' || c == '\x0c'
    || c == '\xa0'

/-- Skip a (greedy) run of `\s` characters. -/
def skipJsWs : List Char → List Char
  | c :: rest => if isJsWs c then skipJsWs rest else c :: rest
  | [] => []

/-- Index of the last `\x7d` in the input, if any (the greedy
`[\s\S]*` of the extraction regex backtracks to the last closing
brace of the whole string). -/
def lastCloseIdx (cs : List Char) : Option Nat :=
  match cs with
  | [] => none
  | c :: rest =>
      match lastCloseIdx rest with
      | some i => some (i + 1)
      | none => if c == '\x7d' then some 0 else none

/-- Attempt the regex `module\.exports\s*=\s*(\x7b[\s\S]*\x7d)` at the
start of `cs`, returning the captured group. -/
def tryMatchAt (cs : List Char) : Option String :=
  match dropLit "module.exports".data cs with
  | none => none
  | some rest =>
    match skipJsWs rest with
    | '=' :: rest2 =>
        (match skipJsWs rest2 with
         | '\x7b' :: body =>
             (match lastCloseIdx body with
              | some k => some (String.mk ('\x7b' :: body.take (k + 1)))
              | none => none)
         | _ => none)
    | _ => none

/-- Leftmost regex match: try every start position left to right. -/
def scanExtract : List Char → Option String
  | [] => none
  | c :: rest =>
      match tryMatchAt (c :: rest) with
      | some cap => some cap
      | none => scanExtract rest

/-- `r.match(/module\.exports\s*=\s*(\x7b[\s\S]*\x7d)/)` of the
tailwind branch (part_000 line 819): the captured config object
literal, when the pattern matches. -/
def extractConfig (r : String) : Option String := scanExtract r.data

/-- The shallow JSON merge (part_000 lines 839-847): parse each chunk
in order; a parsed value is `Object.assign`ed onto the accumulator, a
parse failure stores the raw text under `chunk_<index+1>`. -/
def mergeJsonResults (results : List String) : JsVal :=
  results.enum.foldl
    (fun merged p =>
      match jsonParse p.2 with
      | some parsed => objAssign merged parsed
      | none => setKey merged ("chunk_" ++ toString (p.1 + 1)) (JsVal.str p.2))
    (JsVal.obj [])

/-- `combineChunkedResults(results, format)` (part_000 lines 805-856).
The two `try`/`catch` blocks are embedded by their `try` bodies: in
the tailwind branch neither `String.prototype.match` with this regex
nor `Array.prototype.join` throws, and in the json branch the
per-result parse failure is already handled by the inner `catch`
while `JSON.stringify` cannot throw on the acyclic merged object, so
both outer `catch` arms are unreachable. -/
def combineChunkedResults (results : List String) (format : String) : String :=
  let header := "/* Design tokens generated from Figma - Combined from "
    ++ toString results.length ++ " chunks */\n\n"
  if format == "css" || format == "scss" || format == "css-variables" then
    header ++ joinSep "\n\n/* --- Next chunk --- */\n\n" results
  else if format == "tailwind" then
    let configs := results.map (fun r => (extractConfig r).getD r)
    header ++ "module.exports = \x7b\n  theme: \x7b\n    extend: \x7b\n      // Combined from "
      ++ toString results.length ++ " chunks\n      "
      ++ joinSep ",\n      " configs ++ "\n    \x7d\n  \x7d\n\x7d"
  else if format == "javascript" then
    header ++ joinSep "\n\n// --- Next chunk ---\n\n" results
  else if format == "json" then
    jserializePretty (mergeJsonResults results)
  else
    header ++ joinSep "\n\n// --- Next chunk ---\n\n" results

/-! ### Helper lemmas: category bookkeeping of the chunk planner -/

/-- Concatenation of one category across a list of chunks, in chunk
order. -/
def joinCat (l : List StyleSet) (c : Category) : List JsVal :=
  (l.map (fun s => getCatS s c)).flatten

/-! ### Concrete inputs for witnesses and counterexamples, and
the spec-level observables and invariants used by the proofs. -/

/-- A SOLID fill style carrying no color representation at all. -/
def ghostFill : JsVal :=
  JsVal.obj [("name", JsVal.str "Ghost"),
             ("values", JsVal.obj [("type", JsVal.str "SOLID")])]

/-- A raw collection whose only fill style is `ghostFill`. -/
def ghostStyles : JsVal :=
  JsVal.obj [("styles", JsVal.obj [("fill", JsVal.arr [ghostFill])])]

/-- A fill style with no `values` at all: its resolved type is
`"unknown"` and it has no fallback. -/
def unknownFill : JsVal := JsVal.obj [("name", JsVal.str "Mystery")]

/-- A raw collection whose only fill style is `unknownFill`. -/
def unknownStyles : JsVal :=
  JsVal.obj [("styles", JsVal.obj [("fill", JsVal.arr [unknownFill])])]

/-- A text style with no `values`. -/
def bareText : JsVal := JsVal.obj [("name", JsVal.str "Body")]

/-- A raw collection whose only text style is `bareText`. -/
def bareTextStyles : JsVal :=
  JsVal.obj [("styles", JsVal.obj [("text", JsVal.arr [bareText])])]

/-- A text style whose fields are present but falsy. -/
def falsyText : JsVal :=
  JsVal.obj [("name", JsVal.str "Zeroed"),
             ("values", JsVal.obj [("fontSize", JsVal.num 0),
                                   ("fontFamily", JsVal.str ""),
                                   ("fontWeight", JsVal.str ""),
                                   ("lineHeight", JsVal.str ""),
                                   ("letterSpacing", JsVal.str "")])]

/-- A raw collection whose only text style is `falsyText`. -/
def falsyTextStyles : JsVal :=
  JsVal.obj [("styles", JsVal.obj [("text", JsVal.arr [falsyText])])]

/-- An effect style stacking two effects, shadow first. -/
def shadowEffectStyle : JsVal :=
  JsVal.obj [("name", JsVal.str "Sh"),
             ("values", JsVal.obj [("effects", JsVal.arr
               [JsVal.obj [("type", JsVal.str "DROP_SHADOW"), ("radius", JsVal.num 4)],
                JsVal.obj [("type", JsVal.str "NOISE")]])])]

/-- An effect style with no `values.effects` at all. -/
def emptyEffectStyle : JsVal := JsVal.obj [("name", JsVal.str "E2")]

/-- A raw collection with the two effect styles above. -/
def effectStyles : JsVal :=
  JsVal.obj [("styles", JsVal.obj
    [("effect", JsVal.arr [shadowEffectStyle, emptyEffectStyle])])]

/-- Total number of items (over the four categories) in a chunk. -/
def setItemCount (s : StyleSet) : Nat :=
  s.colors.length + s.typography.length + s.effects.length + s.spacing.length

/-- Total number of items in a working chunk. -/
def wcItemCount (w : WorkingChunk) : Nat :=
  w.colors.length + w.typography.length + w.effects.length + w.spacing.length

/-- The fresh working chunk holding a single item in one category (the
state right after an overflow, part_000 lines 545-546). -/
def singletonWC (c : Category) (item : JsVal) : WorkingChunk := setCatW emptyWC c [item]

/-- An item whose singleton chunk already overflows the budget. -/
def SingOver (budget : Nat) (c : Category) (item : JsVal) : Prop :=
  budget < countTokens (jserialize (wcToJson (singletonWC c item)))

/-- Every chunk placing a singleton-overflowing item holds only that
item, and its serialization (summary included) exceeds the budget. -/
def IsolatedOk (budget : Nat) (ch : StyleSet) : Prop :=
  ∀ c : Category, ∀ o ∈ getCatS ch c, SingOver budget c o →
    (∀ c' : Category, getCatS ch c' = if c' = c then [o] else [])
    ∧ budget < countTokens (jserialize (setToJson ch))

/-- The working chunk either holds no singleton-overflowing item, or
is exactly the singleton chunk of one. -/
def CurrentOk (budget : Nat) (w : WorkingChunk) : Prop :=
  (∀ c : Category, ∀ o ∈ getCatW w c, ¬ SingOver budget c o)
  ∨ ∃ c o, SingOver budget c o ∧ w = singletonWC c o

/-- Invariant of the greedy loop: every finished chunk after the first
is non-empty; once a chunk has been finished the working chunk is
non-empty; every finished chunk isolates its oversized items; and the
working chunk satisfies `CurrentOk`. -/
def PlannerInv (budget : Nat) (st : ChunkState) : Prop :=
  (∀ ch ∈ st.chunks.tail, 0 < setItemCount ch)
  ∧ (st.chunks ≠ [] → 0 < wcItemCount st.current)
  ∧ (∀ ch ∈ st.chunks, IsolatedOk budget ch)
  ∧ CurrentOk budget st.current

/-- A fill style whose token serialization alone far exceeds a
20-token budget. -/
def hugeFill : JsVal :=
  JsVal.obj [("name", JsVal.str
      "AAAAAAAAAAAAAAAAAAAAAAAAAAAAAAAAAAAAAAAAAAAAAAAAAAAAAAAAAAAAAAAAAAAAAAAAAAAAAAAAAAAAAAAAAAAAAAAAAAAA"),
             ("values", JsVal.obj [("type", JsVal.str "SOLID"),
                                   ("hex", JsVal.str "#123456")])]

/-- A raw collection whose only style is `hugeFill`. -/
def hugeStyles : JsVal :=
  JsVal.obj [("styles", JsVal.obj [("fill", JsVal.arr [hugeFill])])]

theorem getCatW_setCatW (w : WorkingChunk) (c c' : Category) (xs : List JsVal) :
    getCatW (setCatW w c xs) c' = if c' = c then xs else getCatW w c' := by
  cases c <;> cases c' <;> simp [getCatW, setCatW]

theorem getCatW_emptyWC (c : Category) : getCatW emptyWC c = [] := by
  cases c <;> rfl

theorem getCatS_finalizeChunk (w : WorkingChunk) (n : Nat) (c : Category) :
    getCatS (finalizeChunk w n) c = getCatW w c := by
  cases c <;> rfl

theorem joinCat_append_single (l : List StyleSet) (y : StyleSet) (c : Category) :
    joinCat (l ++ [y]) c = joinCat l c ++ getCatS y c := by
  simp [joinCat]

theorem stepItem_cat (budget : Nat) (cat : Category) (st : ChunkState) (item : JsVal)
    (c : Category) :
    joinCat (stepItem budget cat st item).chunks c
        ++ getCatW (stepItem budget cat st item).current c
      = joinCat st.chunks c ++ getCatW st.current c
          ++ (if c = cat then [item] else []) := by
  simp only [stepItem]
  split
  · simp [joinCat_append_single, getCatS_finalizeChunk, getCatW_setCatW, getCatW_emptyWC]
  · simp only [joinCat, getCatW_setCatW]
    split
    · simp_all
    · simp_all

theorem foldl_stepItem_cat (budget : Nat) (cat : Category) (items : List JsVal)
    (st : ChunkState) (c : Category) :
    joinCat (items.foldl (stepItem budget cat) st).chunks c
        ++ getCatW (items.foldl (stepItem budget cat) st).current c
      = joinCat st.chunks c ++ getCatW st.current c
          ++ (if c = cat then items else []) := by
  induction items generalizing st with
  | nil => simp
  | cons x xs ih =>
      simp only [List.foldl_cons]
      rw [ih, stepItem_cat]
      split <;> simp

theorem stepCategory_cat (budget : Nat) (compressed : StyleSet) (st : ChunkState)
    (cat c : Category) :
    joinCat (stepCategory budget compressed st cat).chunks c
        ++ getCatW (stepCategory budget compressed st cat).current c
      = joinCat st.chunks c ++ getCatW st.current c
          ++ (if c = cat then getCatS compressed cat else []) := by
  simp only [stepCategory]
  exact foldl_stepItem_cat budget cat (getCatS compressed cat) st c

/-- After the four-category fold, the finished chunks plus the working
chunk hold exactly the compressed category, in order. -/
theorem allCategories_cat (budget : Nat) (compressed : StyleSet) (c : Category) :
    joinCat ([Category.colors, Category.typography, Category.effects,
        Category.spacing].foldl (stepCategory budget compressed)
        { chunks := [], current := emptyWC }).chunks c
      ++ getCatW ([Category.colors, Category.typography, Category.effects,
        Category.spacing].foldl (stepCategory budget compressed)
        { chunks := [], current := emptyWC }).current c
      = getCatS compressed c := by
  simp only [List.foldl_cons, List.foldl_nil]
  rw [stepCategory_cat, stepCategory_cat, stepCategory_cat, stepCategory_cat]
  simp only [joinCat, List.map_nil, List.flatten_nil, List.nil_append, getCatW_emptyWC]
  cases c <;> simp

/-- The per-category contents of the chunk sequence equal the
compressed set's category, for every category. -/
theorem chunkStyles_cat (styles : JsVal) (budget : Nat) (c : Category) :
    joinCat (chunkStyles styles budget) c = getCatS (compressStylesForAI styles) c := by
  simp only [chunkStyles]
  split
  · simp [joinCat]
  · split
    · rw [joinCat_append_single, getCatS_finalizeChunk]
      exact allCategories_cat budget (compressStylesForAI styles) c
    · rename_i hne
      have hlen : getCatW ([Category.colors, Category.typography, Category.effects,
          Category.spacing].foldl (stepCategory budget (compressStylesForAI styles))
          { chunks := [], current := emptyWC }).current c = [] := by
        simp only [Bool.or_eq_true, decide_eq_true_eq, not_or] at hne
        cases c <;> simp only [getCatW] <;> rw [← List.length_eq_zero] <;> omega
      have := allCategories_cat budget (compressStylesForAI styles) c
      rw [hlen, List.append_nil] at this
      exact this

/-! ### Claim theorems -/

/-- C1: for every compressed style set and every token budget,
concatenating the `colors` arrays of all chunks produced by the chunk
planner, in chunk order, equals the original `colors` array, and
likewise for the `typography`, `effects`, and `spacing` arrays: the
partition is order-preserving and lossless, with no item dropped,
duplicated, or moved to another category. -/
theorem chunk_planner_partition_lossless (styles : JsVal) (budget : Nat) :
    ((chunkStyles styles budget).map StyleSet.colors).flatten
        = (compressStylesForAI styles).colors
    ∧ ((chunkStyles styles budget).map StyleSet.typography).flatten
        = (compressStylesForAI styles).typography
    ∧ ((chunkStyles styles budget).map StyleSet.effects).flatten
        = (compressStylesForAI styles).effects
    ∧ ((chunkStyles styles budget).map StyleSet.spacing).flatten
        = (compressStylesForAI styles).spacing := by
  refine ⟨?_, ?_, ?_, ?_⟩
  · simpa [joinCat, getCatS] using chunkStyles_cat styles budget Category.colors
  · simpa [joinCat, getCatS] using chunkStyles_cat styles budget Category.typography
  · simpa [joinCat, getCatS] using chunkStyles_cat styles budget Category.effects
  · simpa [joinCat, getCatS] using chunkStyles_cat styles budget Category.spacing

/-- C2: whenever the estimated token count of the serialized
compressed set (ceiling of its UTF-16 length over 4) is at or below
the per-chunk budget, the chunk planner returns exactly one chunk
that is the compressed input set unchanged, and its summary carries
no `chunkNumber` field. -/
theorem chunk_planner_single_chunk_under_budget (styles : JsVal) (budget : Nat)
    (h : countTokens (jserialize (setToJson (compressStylesForAI styles))) ≤ budget) :
    chunkStyles styles budget = [compressStylesForAI styles]
    ∧ Summary.hasChunkNumber (compressStylesForAI styles).summary = false := by
  constructor
  · have hs : shouldChunkStyles (compressStylesForAI styles) budget = false := by
      simp only [shouldChunkStyles, decide_eq_false_iff_not, not_lt]
      exact h
    simp [chunkStyles, hs]
  · simp [compressStylesForAI, Summary.hasChunkNumber]

set_option maxRecDepth 100000 in
/-- Witness for C2 at a concrete input: the empty styles object is
under a 100000-token budget and yields itself as the only chunk. -/
theorem chunk_planner_single_chunk_under_budget_witness :
    countTokens (jserialize (setToJson (compressStylesForAI (JsVal.obj [])))) ≤ 100000
    ∧ (chunkStyles (JsVal.obj []) 100000 = [compressStylesForAI (JsVal.obj [])]
       ∧ Summary.hasChunkNumber (compressStylesForAI (JsVal.obj [])).summary = false) :=
  ⟨by decide, chunk_planner_single_chunk_under_budget (JsVal.obj []) 100000 (by decide)⟩

set_option maxRecDepth 100000 in
/-- C3 counterexample: the token built for `ghostFill` has no `color`,
`gradientStops` or `imageRef` and no `fallbackHex`/`fallbackCss`, yet
it is present in the compressed `colors` array (the filter keeps every
token whose resolved type differs from `"unknown"`), so the claim
that such a token is always dropped is false. -/
theorem color_token_drop_counterexample :
    jget (mkPaint ghostFill) "color" = JsVal.undef
    ∧ jget (mkPaint ghostFill) "gradientStops" = JsVal.undef
    ∧ jget (mkPaint ghostFill) "imageRef" = JsVal.undef
    ∧ jget (mkPaint ghostFill) "fallbackHex" = JsVal.undef
    ∧ jget (mkPaint ghostFill) "fallbackCss" = JsVal.undef
    ∧ (compressStylesForAI ghostStyles).colors = [mkPaint ghostFill] :=
  ⟨rfl, rfl, rfl, rfl, rfl, rfl⟩

/-- C3 (amended): a color token is absent from the compressed `colors`
array when its resolved `type` is `"unknown"` and it has no truthy
`fallbackHex` or `fallbackCss`; a token with a known paint type is
kept even without any color representation. -/
theorem unknown_paint_dropped (styles : JsVal) (fillList : List JsVal) (s : JsVal)
    (h : jget (jget styles "styles") "fill" = JsVal.arr fillList) (_hs : s ∈ fillList)
    (ht : jget (mkPaint s) "type" = JsVal.str "unknown")
    (hfh : truthy (jget (mkPaint s) "fallbackHex") = false)
    (hfc : truthy (jget (mkPaint s) "fallbackCss") = false) :
    mkPaint s ∉ (compressStylesForAI styles).colors := by
  intro hmem
  have hcolors : (compressStylesForAI styles).colors
      = (fillList.map mkPaint).filter keepPaint := by
    simp [compressStylesForAI, mapIfArray, h]
  rw [hcolors] at hmem
  have hk := (List.mem_filter.mp hmem).2
  rw [keepPaint, ht, hfh, hfc] at hk
  simp [eqStrJ] at hk

set_option maxRecDepth 100000 in
/-- Witness for the amended C3: the `unknownFill` token resolves to
type `"unknown"` with no fallback and is indeed dropped. -/
theorem unknown_paint_dropped_witness :
    jget (jget unknownStyles "styles") "fill" = JsVal.arr [unknownFill]
    ∧ unknownFill ∈ [unknownFill]
    ∧ jget (mkPaint unknownFill) "type" = JsVal.str "unknown"
    ∧ truthy (jget (mkPaint unknownFill) "fallbackHex") = false
    ∧ truthy (jget (mkPaint unknownFill) "fallbackCss") = false
    ∧ mkPaint unknownFill ∉ (compressStylesForAI unknownStyles).colors :=
  ⟨rfl, List.mem_singleton.mpr rfl, rfl, rfl, rfl,
   unknown_paint_dropped unknownStyles [unknownFill] unknownFill rfl
     (List.mem_singleton.mpr rfl) rfl rfl rfl⟩

/-- `a || b` is never `null` when `b` is not `null` (the default wins
whenever `a` is falsy, and `null` is falsy). -/
theorem jsOr_ne_null (a b : JsVal) (hb : b ≠ JsVal.null) : jsOr a b ≠ JsVal.null := by
  unfold jsOr
  split
  · rename_i htr
    rintro rfl
    simp [truthy] at htr
  · exact hb

/-- C8: the compressed typography array has exactly one token per raw
text style (text styles are never filtered out), each of the five
value fields is defaulted (16, "system", "normal", "normal", "normal")
when absent upstream, and no field of a typography token is ever
null. -/
theorem typography_tokens_total_and_defaulted (styles : JsVal) (textList : List JsVal)
    (h : jget (jget styles "styles") "text" = JsVal.arr textList) :
    (compressStylesForAI styles).typography.length = textList.length
    ∧ (∀ s ∈ textList,
        (jget (jget s "values") "fontSize" = JsVal.undef →
          jget (mkTypo s) "fontSize" = JsVal.num 16)
        ∧ (jget (jget s "values") "fontFamily" = JsVal.undef →
          jget (mkTypo s) "fontFamily" = JsVal.str "system")
        ∧ (jget (jget s "values") "fontWeight" = JsVal.undef →
          jget (mkTypo s) "fontWeight" = JsVal.str "normal")
        ∧ (jget (jget s "values") "lineHeight" = JsVal.undef →
          jget (mkTypo s) "lineHeight" = JsVal.str "normal")
        ∧ (jget (jget s "values") "letterSpacing" = JsVal.undef →
          jget (mkTypo s) "letterSpacing" = JsVal.str "normal"))
    ∧ (∀ t ∈ (compressStylesForAI styles).typography,
        jget t "fontSize" ≠ JsVal.null ∧ jget t "fontFamily" ≠ JsVal.null
        ∧ jget t "fontWeight" ≠ JsVal.null ∧ jget t "lineHeight" ≠ JsVal.null
        ∧ jget t "letterSpacing" ≠ JsVal.null) := by
  have htyp : (compressStylesForAI styles).typography = textList.map mkTypo := by
    simp [compressStylesForAI, mapIfArray, h]
  refine ⟨by rw [htyp]; exact List.length_map _ _, ?_, ?_⟩
  · intro s _
    refine ⟨fun hu => ?_, fun hu => ?_, fun hu => ?_, fun hu => ?_, fun hu => ?_⟩
    · show jsOr (jget (jget s "values") "fontSize") (JsVal.num 16) = JsVal.num 16
      rw [hu]; rfl
    · show jsOr (jget (jget s "values") "fontFamily") (JsVal.str "system") = JsVal.str "system"
      rw [hu]; rfl
    · show jsOr (jget (jget s "values") "fontWeight") (JsVal.str "normal") = JsVal.str "normal"
      rw [hu]; rfl
    · show jsOr (jget (jget s "values") "lineHeight") (JsVal.str "normal") = JsVal.str "normal"
      rw [hu]; rfl
    · show jsOr (jget (jget s "values") "letterSpacing") (JsVal.str "normal") = JsVal.str "normal"
      rw [hu]; rfl
  · intro t ht
    rw [htyp] at ht
    obtain ⟨s, _, rfl⟩ := List.mem_map.mp ht
    exact ⟨jsOr_ne_null _ _ (by simp), jsOr_ne_null _ _ (by simp),
           jsOr_ne_null _ _ (by simp), jsOr_ne_null _ _ (by simp),
           jsOr_ne_null _ _ (by simp)⟩

set_option maxRecDepth 100000 in
/-- Witness for C8 at a concrete input. -/
theorem typography_tokens_total_and_defaulted_witness :
    jget (jget bareTextStyles "styles") "text" = JsVal.arr [bareText]
    ∧ ((compressStylesForAI bareTextStyles).typography.length = 1
       ∧ (∀ s ∈ [bareText],
           (jget (jget s "values") "fontSize" = JsVal.undef →
             jget (mkTypo s) "fontSize" = JsVal.num 16)
           ∧ (jget (jget s "values") "fontFamily" = JsVal.undef →
             jget (mkTypo s) "fontFamily" = JsVal.str "system")
           ∧ (jget (jget s "values") "fontWeight" = JsVal.undef →
             jget (mkTypo s) "fontWeight" = JsVal.str "normal")
           ∧ (jget (jget s "values") "lineHeight" = JsVal.undef →
             jget (mkTypo s) "lineHeight" = JsVal.str "normal")
           ∧ (jget (jget s "values") "letterSpacing" = JsVal.undef →
             jget (mkTypo s) "letterSpacing" = JsVal.str "normal"))
       ∧ (∀ t ∈ (compressStylesForAI bareTextStyles).typography,
           jget t "fontSize" ≠ JsVal.null ∧ jget t "fontFamily" ≠ JsVal.null
           ∧ jget t "fontWeight" ≠ JsVal.null ∧ jget t "lineHeight" ≠ JsVal.null
           ∧ jget t "letterSpacing" ≠ JsVal.null)) :=
  ⟨rfl, typography_tokens_total_and_defaulted bareTextStyles [bareText] rfl⟩

/-- C10: typography defaulting is triggered by JS falsiness, not only
by absence: a present-but-falsy upstream field (`fontSize: 0` or an
empty-string `fontFamily`/`fontWeight`/`lineHeight`/`letterSpacing`)
is replaced by the default in the canonical token. -/
theorem typography_defaults_on_falsy (styles : JsVal) (textList : List JsVal) (s : JsVal)
    (h : jget (jget styles "styles") "text" = JsVal.arr textList) (hs : s ∈ textList) :
    mkTypo s ∈ (compressStylesForAI styles).typography
    ∧ (jget (jget s "values") "fontSize" = JsVal.num 0 →
        jget (mkTypo s) "fontSize" = JsVal.num 16)
    ∧ (jget (jget s "values") "fontFamily" = JsVal.str "" →
        jget (mkTypo s) "fontFamily" = JsVal.str "system")
    ∧ (jget (jget s "values") "fontWeight" = JsVal.str "" →
        jget (mkTypo s) "fontWeight" = JsVal.str "normal")
    ∧ (jget (jget s "values") "lineHeight" = JsVal.str "" →
        jget (mkTypo s) "lineHeight" = JsVal.str "normal")
    ∧ (jget (jget s "values") "letterSpacing" = JsVal.str "" →
        jget (mkTypo s) "letterSpacing" = JsVal.str "normal") := by
  have htyp : (compressStylesForAI styles).typography = textList.map mkTypo := by
    simp [compressStylesForAI, mapIfArray, h]
  refine ⟨by rw [htyp]; exact List.mem_map_of_mem mkTypo hs,
          fun hu => ?_, fun hu => ?_, fun hu => ?_, fun hu => ?_, fun hu => ?_⟩
  · show jsOr (jget (jget s "values") "fontSize") (JsVal.num 16) = JsVal.num 16
    rw [hu]; rfl
  · show jsOr (jget (jget s "values") "fontFamily") (JsVal.str "system") = JsVal.str "system"
    rw [hu]; rfl
  · show jsOr (jget (jget s "values") "fontWeight") (JsVal.str "normal") = JsVal.str "normal"
    rw [hu]; rfl
  · show jsOr (jget (jget s "values") "lineHeight") (JsVal.str "normal") = JsVal.str "normal"
    rw [hu]; rfl
  · show jsOr (jget (jget s "values") "letterSpacing") (JsVal.str "normal") = JsVal.str "normal"
    rw [hu]; rfl

set_option maxRecDepth 100000 in
/-- Witness for C10 at a concrete input. -/
theorem typography_defaults_on_falsy_witness :
    jget (jget falsyTextStyles "styles") "text" = JsVal.arr [falsyText]
    ∧ falsyText ∈ [falsyText]
    ∧ (mkTypo falsyText ∈ (compressStylesForAI falsyTextStyles).typography
       ∧ (jget (jget falsyText "values") "fontSize" = JsVal.num 0 →
           jget (mkTypo falsyText) "fontSize" = JsVal.num 16)
       ∧ (jget (jget falsyText "values") "fontFamily" = JsVal.str "" →
           jget (mkTypo falsyText) "fontFamily" = JsVal.str "system")
       ∧ (jget (jget falsyText "values") "fontWeight" = JsVal.str "" →
           jget (mkTypo falsyText) "fontWeight" = JsVal.str "normal")
       ∧ (jget (jget falsyText "values") "lineHeight" = JsVal.str "" →
           jget (mkTypo falsyText) "lineHeight" = JsVal.str "normal")
       ∧ (jget (jget falsyText "values") "letterSpacing" = JsVal.str "" →
           jget (mkTypo falsyText) "letterSpacing" = JsVal.str "normal")) :=
  ⟨rfl, List.mem_singleton.mpr rfl,
   typography_defaults_on_falsy falsyTextStyles [falsyText] falsyText rfl
     (List.mem_singleton.mpr rfl)⟩

set_option maxRecDepth 10000 in
/-- C4 counterexample: combining the single result "x" for the `css`
format does not return "x" — the combined-output header comment is
prepended even to a single result, so `combine([r], format) = r` is
false. -/
theorem combine_single_result_identity_counterexample :
    combineChunkedResults ["x"] "css" ≠ "x" := by decide

/-- C4 (amended): for every target format other than `tailwind` and
`json`, combining a single-element result list returns that result
prefixed by the fixed combined-output header comment (the join over a
one-element list adds no separator); it is not the identity.
(`tailwind` wraps the single extracted fragment in an outer
configuration object and `json` re-serializes through the merge
path.) -/
theorem combine_single_result_prepends_header (r format : String)
    (h1 : format ≠ "tailwind") (h2 : format ≠ "json") :
    combineChunkedResults [r] format
      = "/* Design tokens generated from Figma - Combined from 1 chunks */\n\n" ++ r := by
  simp only [combineChunkedResults]
  split_ifs with hA hB hC hD
  · rw [show joinSep "\n\n/* --- Next chunk --- */\n\n" [r] = r from rfl,
        List.length_singleton]
    exact congrArg (fun h => h ++ r) (by decide)
  · exact absurd (by simpa using hB) h1
  · rw [show joinSep "\n\n// --- Next chunk ---\n\n" [r] = r from rfl,
        List.length_singleton]
    exact congrArg (fun h => h ++ r) (by decide)
  · exact absurd (by simpa using hD) h2
  · rw [show joinSep "\n\n// --- Next chunk ---\n\n" [r] = r from rfl,
        List.length_singleton]
    exact congrArg (fun h => h ++ r) (by decide)

set_option maxRecDepth 10000 in
/-- Witness for the amended C4 at a concrete input. -/
theorem combine_single_result_prepends_header_witness :
    ("css" : String) ≠ "tailwind" ∧ ("css" : String) ≠ "json"
    ∧ combineChunkedResults ["x"] "css"
        = "/* Design tokens generated from Figma - Combined from 1 chunks */\n\n" ++ "x" :=
  ⟨by decide, by decide,
   combine_single_result_prepends_header "x" "css" (by decide) (by decide)⟩

set_option maxRecDepth 100000 in
/-- C6: for the `json` format, each result is parsed as JSON and the
parsed objects are shallow-merged in order: the two valid results
`\x7b"a":1\x7d` and `\x7b"b":2\x7d` combine to the object with keys
`a:1, b:2`; a later chunk overwrites an overlapping key; and a result
that fails to parse is stored under the raw-text fallback key
`chunk_<i>` instead of aborting the merge. -/
theorem combine_json_merges_results :
    combineChunkedResults ["\x7b\"a\":1\x7d", "\x7b\"b\":2\x7d"] "json"
        = "\x7b\n  \"a\": 1,\n  \"b\": 2\n\x7d"
    ∧ jsonParse (combineChunkedResults ["\x7b\"a\":1\x7d", "\x7b\"b\":2\x7d"] "json")
        = some (JsVal.obj [("a", JsVal.num 1), ("b", JsVal.num 2)])
    ∧ combineChunkedResults ["\x7b\"a\":1\x7d", "\x7b\"a\":2\x7d"] "json"
        = "\x7b\n  \"a\": 2\n\x7d"
    ∧ jsonParse "oops" = none
    ∧ combineChunkedResults ["\x7b\"a\":1\x7d", "oops"] "json"
        = "\x7b\n  \"a\": 1,\n  \"chunk_2\": \"oops\"\n\x7d" :=
  ⟨rfl, rfl, rfl, rfl, rfl⟩

set_option maxRecDepth 100000 in
/-- C7 counterexample: with the two results "a" and "b" (for neither
of which the `module.exports` extraction pattern matches), the
tailwind combiner does not fall back to concatenation with a
line-comment separator; it wraps the raw texts in the outer
configuration object. -/
theorem tailwind_no_concat_fallback_counterexample :
    extractConfig "a" = none
    ∧ extractConfig "b" = none
    ∧ combineChunkedResults ["a", "b"] "tailwind"
        ≠ "/* Design tokens generated from Figma - Combined from 2 chunks */\n\n"
          ++ "a\n\n// --- Next chunk ---\n\nb"
    ∧ combineChunkedResults ["a", "b"] "tailwind"
        = "/* Design tokens generated from Figma - Combined from 2 chunks */\n\nmodule.exports = \x7b\n  theme: \x7b\n    extend: \x7b\n      // Combined from 2 chunks\n      a,\n      b\n    \x7d\n  \x7d\n\x7d" :=
  ⟨rfl, rfl, by decide, rfl⟩

set_option maxRecDepth 100000 in
/-- C7 (amended): the tailwind combiner extracts the object literal
following the `module.exports =` marker from each chunk when the
pattern matches, and wraps the comma-joined fragments in one outer
configuration object; when extraction fails for a chunk, that chunk's
raw text is used in place of its fragment and the wrap still happens —
the line-comment concatenation fallback is not triggered by extraction
failure (it would only be reached if extraction itself threw, which
cannot happen). -/
theorem tailwind_combine_wraps_fragments :
    (extractConfig "module.exports = \x7bx\x7d" = some "\x7bx\x7d"
     ∧ combineChunkedResults
         ["module.exports = \x7bx\x7d", "module.exports = \x7by\x7d"] "tailwind"
         = "/* Design tokens generated from Figma - Combined from 2 chunks */\n\nmodule.exports = \x7b\n  theme: \x7b\n    extend: \x7b\n      // Combined from 2 chunks\n      \x7bx\x7d,\n      \x7by\x7d\n    \x7d\n  \x7d\n\x7d")
    ∧ (extractConfig "raw body" = none
       ∧ combineChunkedResults ["module.exports = \x7bx\x7d", "raw body"] "tailwind"
         = "/* Design tokens generated from Figma - Combined from 2 chunks */\n\nmodule.exports = \x7b\n  theme: \x7b\n    extend: \x7b\n      // Combined from 2 chunks\n      \x7bx\x7d,\n      raw body\n    \x7d\n  \x7d\n\x7d") :=
  ⟨⟨rfl, rfl⟩, ⟨rfl, rfl⟩⟩

/-! ### Helper lemmas: object-key bookkeeping for effect tokens -/

theorem setField_find?_ne (fs : List (String × JsVal)) (k k' : String) (v : JsVal)
    (h : k' ≠ k) :
    (setField fs k' v).find? (fun p => p.1 == k) = fs.find? (fun p => p.1 == k) := by
  induction fs with
  | nil =>
      have : (k' == k) = false := by simpa using h
      simp [setField, List.find?, this]
  | cons p rest ih =>
      rcases p with ⟨pk, pv⟩
      simp only [setField]
      by_cases hpk : (pk == k') = true
      · have hpk' : pk = k' := by simpa using hpk
        subst hpk'
        have hne : (pk == k) = false := by simpa using h
        simp [hpk, List.find?, hne]
      · simp only [hpk, if_false, Bool.false_eq_true]
        by_cases hk : (pk == k) = true
        · simp [List.find?, hk]
        · simp only [List.find?, hk]
          simpa using ih

theorem jget_setKey_ne (o : JsVal) (k k' : String) (v : JsVal) (h : k' ≠ k) :
    jget (setKey o k' v) k = jget o k := by
  cases o with
  | obj fs =>
      simp only [setKey, jget]
      rw [setField_find?_ne fs k k' v h]
  | undef => rfl
  | null => rfl
  | bool b => rfl
  | num n => rfl
  | str s => rfl
  | arr xs => rfl

theorem jget_setKey_self (fs : List (String × JsVal)) (k : String) (v : JsVal) :
    jget (setKey (JsVal.obj fs) k v) k = v := by
  induction fs with
  | nil => simp [setKey, setField, jget, List.find?]
  | cons p rest ih =>
      rcases p with ⟨pk, pv⟩
      simp only [setKey, setField] at ih ⊢
      by_cases hpk : (pk == k) = true
      · simp [hpk, jget, List.find?]
      · simp only [hpk, if_false, Bool.false_eq_true, jget, List.find?]
        simpa [jget, List.find?, hpk] using ih

/-- `condAssign` keeps objects objects. -/
theorem condAssign_isObj (fs : List (String × JsVal)) (ts : List (Bool × String × JsVal)) :
    ∃ gs, condAssign (JsVal.obj fs) ts = JsVal.obj gs := by
  induction ts generalizing fs with
  | nil => exact ⟨fs, rfl⟩
  | cons t rest ih =>
      have hstep : condAssign (JsVal.obj fs) (t :: rest)
          = condAssign (if t.1 then setKey (JsVal.obj fs) t.2.1 t.2.2 else JsVal.obj fs)
              rest := rfl
      rw [hstep]
      by_cases ht : t.1 = true
      · simp only [ht, if_true, setKey]
        exact ih _
      · simp only [ht, if_false, Bool.false_eq_true]
        exact ih fs

/-- A key assigned by none of the conditional assignments reads the
same before and after. -/
theorem jget_condAssign_not_mem (o : JsVal) (ts : List (Bool × String × JsVal)) (k : String)
    (h : ∀ t ∈ ts, t.2.1 ≠ k) :
    jget (condAssign o ts) k = jget o k := by
  induction ts generalizing o with
  | nil => rfl
  | cons t rest ih =>
      have hstep : condAssign o (t :: rest)
          = condAssign (if t.1 then setKey o t.2.1 t.2.2 else o) rest := rfl
      rw [hstep, ih _ (fun t' ht' => h t' (List.mem_cons_of_mem _ ht'))]
      split
      · exact jget_setKey_ne o k t.2.1 t.2.2 (h t (List.mem_cons_self _ _))
      · rfl

/-- A style with a missing, non-array, or empty `values.effects` maps
to `null` (no effect token). -/
theorem mkEffect_null_of_no_effects (s : JsVal) (h : hasEffects s = false) :
    mkEffect s = JsVal.null := by
  simp only [mkEffect]
  split
  · rename_i e0 rest hE
    rw [hasEffects, hE] at h
    simp at h
  · rfl

/-- The effect mapper's filtered output is no longer than the list of
styles that actually carry effects. -/
theorem effects_filter_le (xs : List JsVal) :
    ((xs.map mkEffect).filter keepEffect).length ≤ (xs.filter hasEffects).length := by
  induction xs with
  | nil => simp
  | cons s rest ih =>
      simp only [List.map_cons, List.filter_cons]
      by_cases hs : hasEffects s = true
      · simp only [hs, if_true]
        by_cases hk : keepEffect (mkEffect s) = true
        · simp only [hk, if_true, List.length_cons]
          omega
        · simp only [hk, if_false, Bool.false_eq_true, List.length_cons]
          omega
      · have hnull : mkEffect s = JsVal.null := by
          refine mkEffect_null_of_no_effects s ?_
          exact Bool.eq_false_iff.mpr hs
        have hk : keepEffect (mkEffect s) = false := by
          rw [hnull, keepEffect]
          rfl
        simp only [Bool.eq_false_iff.mpr hs, if_false, hk, Bool.false_eq_true]
        exact ih

/-- The `name` of an effect token comes from the style. -/
theorem jget_mkEffect_name (s e0 : JsVal) (rest : List JsVal)
    (h : jget (jget s "values") "effects" = JsVal.arr (e0 :: rest)) :
    jget (mkEffect s) "name" = jget s "name" := by
  simp only [mkEffect, h]
  rw [jget_condAssign_not_mem]
  · rfl
  · intro t ht hc
    have hmem : t.2.1 ∈ (effectSets e0 rest).map (fun t => t.2.1) :=
      List.mem_map_of_mem _ ht
    have hkeys : (effectSets e0 rest).map (fun t => t.2.1)
        = ["radius", "blendMode", "visible", "color", "offset", "spread",
           "showShadowBehindNode", "blurType", "startRadius", "startOffset",
           "endOffset", "noiseSize", "noiseType", "density", "secondaryColor",
           "opacity", "noiseSize", "clipToShape", "allEffects"] := rfl
    rw [hkeys, hc] at hmem
    exact absurd hmem (by decide)

/-- The `type` of an effect token is the first effect's type, or
`"unknown"` when that is falsy. -/
theorem jget_mkEffect_type (s e0 : JsVal) (rest : List JsVal)
    (h : jget (jget s "values") "effects" = JsVal.arr (e0 :: rest)) :
    jget (mkEffect s) "type" = jsOr (jget e0 "type") (JsVal.str "unknown") := by
  simp only [mkEffect, h]
  rw [jget_condAssign_not_mem]
  · rfl
  · intro t ht hc
    have hmem : t.2.1 ∈ (effectSets e0 rest).map (fun t => t.2.1) :=
      List.mem_map_of_mem _ ht
    have hkeys : (effectSets e0 rest).map (fun t => t.2.1)
        = ["radius", "blendMode", "visible", "color", "offset", "spread",
           "showShadowBehindNode", "blurType", "startRadius", "startOffset",
           "endOffset", "noiseSize", "noiseType", "density", "secondaryColor",
           "opacity", "noiseSize", "clipToShape", "allEffects"] := rfl
    rw [hkeys, hc] at hmem
    exact absurd hmem (by decide)

/-- With more than one stacked effect, the token retains the whole
original effect list under `allEffects`. -/
theorem jget_mkEffect_allEffects (s e0 : JsVal) (rest : List JsVal)
    (h : jget (jget s "values") "effects" = JsVal.arr (e0 :: rest)) (hr : rest ≠ []) :
    jget (mkEffect s) "allEffects" = JsVal.arr (e0 :: rest) := by
  simp only [mkEffect, h, effectSets, condAssign, List.foldl_append]
  have hne : (!rest.isEmpty) = true := by
    cases rest with
    | nil => exact absurd rfl hr
    | cons a l => rfl
  simp only [List.foldl_cons, List.foldl_nil, hne, if_true]
  obtain ⟨gs, hgs⟩ := condAssign_isObj
    [("name", jget s "name"), ("type", jsOr (jget e0 "type") (JsVal.str "unknown"))]
    (effectPropSets e0)
  rw [show List.foldl (fun acc t => if t.1 then setKey acc t.2.1 t.2.2 else acc)
        (JsVal.obj [("name", jget s "name"),
                    ("type", jsOr (jget e0 "type") (JsVal.str "unknown"))])
        (effectPropSets e0)
      = condAssign (JsVal.obj [("name", jget s "name"),
                    ("type", jsOr (jget e0 "type") (JsVal.str "unknown"))])
        (effectPropSets e0) from rfl, hgs]
  exact jget_setKey_self gs "allEffects" (JsVal.arr (e0 :: rest))

/-- C9: every effect token is derived from the first element of
`values.effects` (name from the style, type from the first effect,
defaulting to "unknown"); a style whose effects list is missing,
non-array, or empty yields no token; with more than one effect the
full original list is retained under `allEffects`; tokens resolving
to type "unknown" are dropped; and the compressed effects array is
never longer than the raw effect style list (indeed no longer than
the list of styles that carry effects). -/
theorem effect_token_rules (styles : JsVal) (effList : List JsVal)
    (h : jget (jget styles "styles") "effect" = JsVal.arr effList) :
    (compressStylesForAI styles).effects.length ≤ effList.length
    ∧ (compressStylesForAI styles).effects.length ≤ (effList.filter hasEffects).length
    ∧ (∀ s ∈ effList, hasEffects s = false → mkEffect s = JsVal.null)
    ∧ (∀ e ∈ (compressStylesForAI styles).effects,
        e ≠ JsVal.null ∧ jget e "type" ≠ JsVal.str "unknown")
    ∧ (∀ s ∈ effList, ∀ e0 : JsVal, ∀ rest : List JsVal,
        jget (jget s "values") "effects" = JsVal.arr (e0 :: rest) →
          jget (mkEffect s) "name" = jget s "name"
          ∧ jget (mkEffect s) "type" = jsOr (jget e0 "type") (JsVal.str "unknown")
          ∧ (rest ≠ [] → jget (mkEffect s) "allEffects" = JsVal.arr (e0 :: rest))) := by
  have heff : (compressStylesForAI styles).effects
      = (effList.map mkEffect).filter keepEffect := by
    simp [compressStylesForAI, mapIfArray, h]
  refine ⟨?_, ?_, ?_, ?_, ?_⟩
  · rw [heff]
    calc ((effList.map mkEffect).filter keepEffect).length
        ≤ (effList.map mkEffect).length := List.length_filter_le _ _
      _ = effList.length := List.length_map _ _
  · rw [heff]
    exact effects_filter_le effList
  · intro s _ hf
    exact mkEffect_null_of_no_effects s hf
  · intro e he
    rw [heff] at he
    have hk := List.of_mem_filter he
    rw [keepEffect, Bool.and_eq_true] at hk
    constructor
    · intro hc
      subst hc
      simp [isNullJ] at hk
    · intro hc
      rw [hc] at hk
      simp [eqStrJ] at hk
  · intro s _ e0 rest hE
    exact ⟨jget_mkEffect_name s e0 rest hE, jget_mkEffect_type s e0 rest hE,
           fun hr => jget_mkEffect_allEffects s e0 rest hE hr⟩

set_option maxRecDepth 100000 in
/-- Witness for C9 at a concrete input. -/
theorem effect_token_rules_witness :
    jget (jget effectStyles "styles") "effect"
        = JsVal.arr [shadowEffectStyle, emptyEffectStyle]
    ∧ ((compressStylesForAI effectStyles).effects.length
          ≤ [shadowEffectStyle, emptyEffectStyle].length
       ∧ (compressStylesForAI effectStyles).effects.length
          ≤ ([shadowEffectStyle, emptyEffectStyle].filter hasEffects).length
       ∧ (∀ s ∈ [shadowEffectStyle, emptyEffectStyle],
            hasEffects s = false → mkEffect s = JsVal.null)
       ∧ (∀ e ∈ (compressStylesForAI effectStyles).effects,
            e ≠ JsVal.null ∧ jget e "type" ≠ JsVal.str "unknown")
       ∧ (∀ s ∈ [shadowEffectStyle, emptyEffectStyle], ∀ e0 : JsVal, ∀ rest : List JsVal,
            jget (jget s "values") "effects" = JsVal.arr (e0 :: rest) →
              jget (mkEffect s) "name" = jget s "name"
              ∧ jget (mkEffect s) "type" = jsOr (jget e0 "type") (JsVal.str "unknown")
              ∧ (rest ≠ [] → jget (mkEffect s) "allEffects" = JsVal.arr (e0 :: rest)))) :=
  ⟨rfl, effect_token_rules effectStyles [shadowEffectStyle, emptyEffectStyle] rfl⟩

/-! ### Helper lemmas: serialized sizes, for the chunk planner's greedy
loop.  The key facts are that a serialized working chunk is at least
as long as the serialized singleton chunk of any item it contains, and
that attaching a summary only lengthens the serialization. -/

theorem utf16_append (a b : String) : utf16Len (a ++ b) = utf16Len a + utf16Len b := by
  simp [utf16Len, String.data_append]

theorem utf16_joinComma_cons (s : String) (rest : List String) :
    utf16Len (joinComma (s :: rest))
      = utf16Len s + (if rest = [] then 0 else 1 + utf16Len (joinComma rest)) := by
  cases rest with
  | nil => simp [joinComma]
  | cons a l =>
      have hc : utf16Len "," = 1 := by decide
      have h0 : joinComma (s :: a :: l) = s ++ "," ++ joinComma (a :: l) := rfl
      rw [h0, utf16_append, utf16_append, hc]
      simp only [List.cons_ne_nil, if_neg, ite_false]
      omega

theorem utf16_joinComma4 (a b c d : String) :
    utf16Len (joinComma [a, b, c, d])
      = utf16Len a + utf16Len b + utf16Len c + utf16Len d + 3 := by
  rw [utf16_joinComma_cons, utf16_joinComma_cons, utf16_joinComma_cons,
      utf16_joinComma_cons]
  simp only [List.cons_ne_nil, ite_false, ite_true, if_neg, if_pos]
  omega

theorem utf16_joinComma5 (a b c d e : String) :
    utf16Len (joinComma [a, b, c, d, e])
      = utf16Len a + utf16Len b + utf16Len c + utf16Len d + utf16Len e + 4 := by
  rw [utf16_joinComma_cons, utf16_joinComma_cons, utf16_joinComma_cons,
      utf16_joinComma_cons, utf16_joinComma_cons]
  simp only [List.cons_ne_nil, ite_false, ite_true, if_neg, if_pos]
  omega

theorem aLen_decomp (xs : List JsVal) :
    utf16Len (jserialize (JsVal.arr xs)) = 2 + utf16Len (joinComma (jitems xs)) := by
  have h0 : jserialize (JsVal.arr xs) = "[" ++ joinComma (jitems xs) ++ "]" := rfl
  have h1 : utf16Len "[" = 1 := by decide
  have h2 : utf16Len "]" = 1 := by decide
  rw [h0, utf16_append, utf16_append, h1, h2]
  omega

theorem jitems_map (xs : List JsVal) : jitems xs = xs.map jserialize := by
  induction xs with
  | nil => rfl
  | cons x rest ih => simp [jitems, ih]

theorem joinComma_mem_le (ls : List String) (x : String) (h : x ∈ ls) :
    utf16Len x ≤ utf16Len (joinComma ls) := by
  induction ls with
  | nil => cases h
  | cons s rest ih =>
      rw [utf16_joinComma_cons]
      rcases List.mem_cons.mp h with rfl | hmem
      · split <;> omega
      · have hrec := ih hmem
        split
        · rename_i hrest
          subst hrest
          cases hmem
        · omega

theorem aLen_mem (xs : List JsVal) (x : JsVal) (h : x ∈ xs) :
    utf16Len (jserialize (JsVal.arr [x])) ≤ utf16Len (jserialize (JsVal.arr xs)) := by
  rw [aLen_decomp, aLen_decomp]
  have h1 : joinComma (jitems [x]) = jserialize x := rfl
  have h2 : jserialize x ∈ jitems xs := by
    rw [jitems_map]
    exact List.mem_map_of_mem _ h
  have := joinComma_mem_le (jitems xs) _ h2
  rw [h1]
  omega

theorem aLen_ge_two (xs : List JsVal) : 2 ≤ utf16Len (jserialize (JsVal.arr xs)) := by
  rw [aLen_decomp]
  omega

theorem aLen_singleton (x : JsVal) :
    utf16Len (jserialize (JsVal.arr [x])) = 2 + utf16Len (jserialize x) := by
  rw [aLen_decomp]
  have h1 : joinComma (jitems [x]) = jserialize x := rfl
  rw [h1]

theorem aLen_nil : utf16Len (jserialize (JsVal.arr [])) = 2 := by decide

theorem wcLen_eq (w : WorkingChunk) :
    utf16Len (jserialize (wcToJson w))
      = 47 + utf16Len (jserialize (JsVal.arr w.colors))
          + utf16Len (jserialize (JsVal.arr w.typography))
          + utf16Len (jserialize (JsVal.arr w.effects))
          + utf16Len (jserialize (JsVal.arr w.spacing)) := by
  have h0 : jserialize (wcToJson w)
      = "\x7b" ++ joinComma
          [quoteStr "colors" ++ ":" ++ jserialize (JsVal.arr w.colors),
           quoteStr "typography" ++ ":" ++ jserialize (JsVal.arr w.typography),
           quoteStr "effects" ++ ":" ++ jserialize (JsVal.arr w.effects),
           quoteStr "spacing" ++ ":" ++ jserialize (JsVal.arr w.spacing)] ++ "\x7d" := rfl
  have hb1 : utf16Len "\x7b" = 1 := by decide
  have hb2 : utf16Len "\x7d" = 1 := by decide
  have hcol : utf16Len ":" = 1 := by decide
  have hk1 : utf16Len (quoteStr "colors") = 8 := by decide
  have hk2 : utf16Len (quoteStr "typography") = 12 := by decide
  have hk3 : utf16Len (quoteStr "effects") = 9 := by decide
  have hk4 : utf16Len (quoteStr "spacing") = 9 := by decide
  rw [h0, utf16_append, utf16_append, utf16_joinComma4]
  simp only [utf16_append]
  rw [hb1, hb2, hcol, hk1, hk2, hk3, hk4]
  omega

theorem setLen_ge_wcLen (w : WorkingChunk) (n : Nat) :
    utf16Len (jserialize (wcToJson w))
      ≤ utf16Len (jserialize (setToJson (finalizeChunk w n))) := by
  have h0 : jserialize (setToJson (finalizeChunk w n))
      = "\x7b" ++ joinComma
          [quoteStr "colors" ++ ":" ++ jserialize (JsVal.arr w.colors),
           quoteStr "typography" ++ ":" ++ jserialize (JsVal.arr w.typography),
           quoteStr "effects" ++ ":" ++ jserialize (JsVal.arr w.effects),
           quoteStr "spacing" ++ ":" ++ jserialize (JsVal.arr w.spacing),
           quoteStr "summary" ++ ":"
             ++ jserialize (summaryToJson (finalizeChunk w n).summary)] ++ "\x7d" := rfl
  have hb1 : utf16Len "\x7b" = 1 := by decide
  have hb2 : utf16Len "\x7d" = 1 := by decide
  have hcol : utf16Len ":" = 1 := by decide
  have hk1 : utf16Len (quoteStr "colors") = 8 := by decide
  have hk2 : utf16Len (quoteStr "typography") = 12 := by decide
  have hk3 : utf16Len (quoteStr "effects") = 9 := by decide
  have hk4 : utf16Len (quoteStr "spacing") = 9 := by decide
  have hk5 : utf16Len (quoteStr "summary") = 9 := by decide
  rw [h0, utf16_append, utf16_append, utf16_joinComma5, wcLen_eq]
  simp only [utf16_append]
  omega

theorem countTokens_mono {a b : String} (h : utf16Len a ≤ utf16Len b) :
    countTokens a ≤ countTokens b := by
  unfold countTokens
  exact Nat.div_le_div_right (by omega)

theorem wcLen_singleton_le (w : WorkingChunk) (c : Category) (item : JsVal)
    (h : item ∈ getCatW w c) :
    utf16Len (jserialize (wcToJson (singletonWC c item)))
      ≤ utf16Len (jserialize (wcToJson w)) := by
  cases c with
  | colors =>
      have hm := aLen_mem w.colors item h
      have h2 := aLen_ge_two w.typography
      have h3 := aLen_ge_two w.effects
      have h4 := aLen_ge_two w.spacing
      rw [show singletonWC Category.colors item
            = ({ colors := [item], typography := [], effects := [], spacing := [] }
              : WorkingChunk) from rfl, wcLen_eq, wcLen_eq]
      simp only [aLen_nil]
      omega
  | typography =>
      have hm := aLen_mem w.typography item h
      have h2 := aLen_ge_two w.colors
      have h3 := aLen_ge_two w.effects
      have h4 := aLen_ge_two w.spacing
      rw [show singletonWC Category.typography item
            = ({ colors := [], typography := [item], effects := [], spacing := [] }
              : WorkingChunk) from rfl, wcLen_eq, wcLen_eq]
      simp only [aLen_nil]
      omega
  | effects =>
      have hm := aLen_mem w.effects item h
      have h2 := aLen_ge_two w.colors
      have h3 := aLen_ge_two w.typography
      have h4 := aLen_ge_two w.spacing
      rw [show singletonWC Category.effects item
            = ({ colors := [], typography := [], effects := [item], spacing := [] }
              : WorkingChunk) from rfl, wcLen_eq, wcLen_eq]
      simp only [aLen_nil]
      omega
  | spacing =>
      have hm := aLen_mem w.spacing item h
      have h2 := aLen_ge_two w.colors
      have h3 := aLen_ge_two w.typography
      have h4 := aLen_ge_two w.effects
      rw [show singletonWC Category.spacing item
            = ({ colors := [], typography := [], effects := [], spacing := [item] }
              : WorkingChunk) from rfl, wcLen_eq, wcLen_eq]
      simp only [aLen_nil]
      omega

theorem own_le_singleton (c : Category) (item : JsVal) :
    utf16Len (jserialize item)
      ≤ utf16Len (jserialize (wcToJson (singletonWC c item))) := by
  cases c with
  | colors =>
      rw [show singletonWC Category.colors item
            = ({ colors := [item], typography := [], effects := [], spacing := [] }
              : WorkingChunk) from rfl, wcLen_eq]
      simp only [aLen_nil, aLen_singleton]
      omega
  | typography =>
      rw [show singletonWC Category.typography item
            = ({ colors := [], typography := [item], effects := [], spacing := [] }
              : WorkingChunk) from rfl, wcLen_eq]
      simp only [aLen_nil, aLen_singleton]
      omega
  | effects =>
      rw [show singletonWC Category.effects item
            = ({ colors := [], typography := [], effects := [item], spacing := [] }
              : WorkingChunk) from rfl, wcLen_eq]
      simp only [aLen_nil, aLen_singleton]
      omega
  | spacing =>
      rw [show singletonWC Category.spacing item
            = ({ colors := [], typography := [], effects := [], spacing := [item] }
              : WorkingChunk) from rfl, wcLen_eq]
      simp only [aLen_nil, aLen_singleton]
      omega

/-- An item whose own serialization exceeds the budget makes even its
singleton chunk exceed the budget. -/
theorem singOver_of_own (budget : Nat) (c : Category) (item : JsVal)
    (h : budget < countTokens (jserialize item)) : SingOver budget c item :=
  lt_of_lt_of_le h (countTokens_mono (own_le_singleton c item))

/-! ### The greedy-loop invariant for C5 -/

theorem tail_append_single {α : Type} (xs : List α) (y : α) (P : α → Prop)
    (h1 : ∀ a ∈ xs.tail, P a) (h2 : xs ≠ [] → P y) :
    ∀ a ∈ (xs ++ [y]).tail, P a := by
  cases xs with
  | nil => simp
  | cons b bs =>
      intro a ha
      simp only [List.cons_append, List.tail_cons] at ha
      rcases List.mem_append.mp ha with h | h
      · exact h1 a h
      · rw [List.mem_singleton.mp h]
        exact h2 (by simp)

theorem getCatW_singleton (c c' : Category) (item : JsVal) :
    getCatW (singletonWC c item) c' = if c' = c then [item] else [] := by
  rw [singletonWC, getCatW_setCatW]
  split
  · rfl
  · exact getCatW_emptyWC c'

theorem wcItemCount_pos_push (w : WorkingChunk) (cat : Category) (item : JsVal) :
    0 < wcItemCount (setCatW w cat (getCatW w cat ++ [item])) := by
  cases cat <;> simp [setCatW, getCatW, wcItemCount]

theorem wcItemCount_pos_singleton (c : Category) (item : JsVal) :
    0 < wcItemCount (singletonWC c item) := by
  cases c <;> simp [singletonWC, setCatW, emptyWC, wcItemCount]

theorem finalize_isolated (budget : Nat) (w : WorkingChunk) (n : Nat)
    (hc : CurrentOk budget w) : IsolatedOk budget (finalizeChunk w n) := by
  intro c o ho hov
  rw [getCatS_finalizeChunk] at ho
  rcases hc with hno | ⟨c₀, o₀, hov₀, rfl⟩
  · exact absurd hov (hno c o ho)
  · rw [getCatW_singleton] at ho
    by_cases hcc : c = c₀
    · subst hcc
      rw [if_pos rfl] at ho
      rw [List.mem_singleton.mp ho]
      constructor
      · intro c'
        rw [getCatS_finalizeChunk, getCatW_singleton]
      · exact lt_of_lt_of_le hov₀
          (countTokens_mono (setLen_ge_wcLen (singletonWC c o₀) n))
    · rw [if_neg hcc] at ho
      cases ho

theorem stepItem_inv (budget : Nat) (cat : Category) (st : ChunkState) (item : JsVal)
    (h : PlannerInv budget st) : PlannerInv budget (stepItem budget cat st item) := by
  obtain ⟨h1, h2, h3, h4⟩ := h
  simp only [stepItem]
  split
  · refine ⟨?_, ?_, ?_, ?_⟩
    · exact tail_append_single st.chunks _ _ h1 (fun hne => h2 hne)
    · intro _
      exact wcItemCount_pos_singleton cat item
    · intro ch hch
      rcases List.mem_append.mp hch with hin | hin
      · exact h3 ch hin
      · rw [List.mem_singleton.mp hin]
        exact finalize_isolated budget st.current _ h4
    · by_cases hs : SingOver budget cat item
      · exact Or.inr ⟨cat, item, hs, rfl⟩
      · refine Or.inl ?_
        intro c o ho
        rw [show setCatW emptyWC cat [item] = singletonWC cat item from rfl,
            getCatW_singleton] at ho
        by_cases hcc : c = cat
        · subst hcc
          rw [if_pos rfl] at ho
          rw [List.mem_singleton.mp ho]
          exact hs
        · rw [if_neg hcc] at ho
          cases ho
  · rename_i hnover
    refine ⟨h1, fun _ => wcItemCount_pos_push st.current cat item, h3, Or.inl ?_⟩
    intro c o ho hov
    exact hnover (lt_of_lt_of_le hov (countTokens_mono (wcLen_singleton_le _ c o ho)))

theorem foldl_stepItem_inv (budget : Nat) (cat : Category) (items : List JsVal)
    (st : ChunkState) (h : PlannerInv budget st) :
    PlannerInv budget (items.foldl (stepItem budget cat) st) := by
  induction items generalizing st with
  | nil => exact h
  | cons x xs ih => exact ih _ (stepItem_inv budget cat st x h)

theorem foldl_stepCategory_inv (budget : Nat) (compressed : StyleSet)
    (cats : List Category) (st : ChunkState) (h : PlannerInv budget st) :
    PlannerInv budget (cats.foldl (stepCategory budget compressed) st) := by
  induction cats generalizing st with
  | nil => exact h
  | cons c cs ih => exact ih _ (foldl_stepItem_inv budget c (getCatS compressed c) st h)

theorem plannerInv_init (budget : Nat) :
    PlannerInv budget { chunks := [], current := emptyWC } := by
  refine ⟨by simp, by simp, by simp, Or.inl ?_⟩
  intro c o ho
  rw [getCatW_emptyWC] at ho
  cases ho

/-- C5 (amended): for every input the chunk planner splits, a single
item whose own serialized size exceeds the per-chunk budget ends up
alone in its chunk (every other category array of that chunk is
empty), that chunk's serialization exceeds the budget, and the planner
never subdivides below single-item granularity; every produced chunk
except possibly the first contains at least one item — the first chunk
is empty exactly when the very first accumulated item already
overflows the otherwise-empty working chunk. -/
theorem chunk_planner_oversized_isolated (styles : JsVal) (budget : Nat)
    (hsplit : shouldChunkStyles (compressStylesForAI styles) budget = true) :
    (∀ ch ∈ (chunkStyles styles budget).tail, 0 < setItemCount ch)
    ∧ (∀ ch ∈ chunkStyles styles budget, ∀ c : Category, ∀ o ∈ getCatS ch c,
        budget < countTokens (jserialize o) →
          (∀ c' : Category, getCatS ch c' = if c' = c then [o] else [])
          ∧ budget < countTokens (jserialize (setToJson ch))) := by
  obtain ⟨g1, g2, g3, g4⟩ :=
    foldl_stepCategory_inv budget (compressStylesForAI styles)
      [Category.colors, Category.typography, Category.effects, Category.spacing]
      { chunks := [], current := emptyWC } (plannerInv_init budget)
  generalize hstF : [Category.colors, Category.typography, Category.effects,
      Category.spacing].foldl (stepCategory budget (compressStylesForAI styles))
      { chunks := [], current := emptyWC } = stF at g1 g2 g3 g4
  have hchunks : chunkStyles styles budget
      = if stF.current.colors.length > 0 || stF.current.typography.length > 0
            || stF.current.effects.length > 0 || stF.current.spacing.length > 0 then
          stF.chunks ++ [finalizeChunk stF.current (stF.chunks.length + 1)]
        else stF.chunks := by
    simp only [chunkStyles, hsplit, Bool.not_true, Bool.false_eq_true, if_false, hstF]
  rw [hchunks]
  split
  · constructor
    · exact tail_append_single _ _ _ g1 (fun hne => g2 hne)
    · intro ch hch c o ho hown
      have hiso : IsolatedOk budget ch := by
        rcases List.mem_append.mp hch with hin | hin
        · exact g3 ch hin
        · rw [List.mem_singleton.mp hin]
          exact finalize_isolated budget _ _ g4
      exact hiso c o ho (singOver_of_own budget c o hown)
  · constructor
    · exact g1
    · intro ch hch c o ho hown
      exact g3 ch hch c o ho (singOver_of_own budget c o hown)

set_option maxRecDepth 1000000 in
/-- C5 counterexample: with `hugeStyles` and budget 20 the planner
splits, and its very first produced chunk contains zero items (the
first pushed item already overflows the empty working chunk, so the
pre-push — empty — chunk is finalized), refuting "every produced chunk
contains at least one item". -/
theorem chunk_planner_empty_first_chunk_counterexample :
    shouldChunkStyles (compressStylesForAI hugeStyles) 20 = true
    ∧ (chunkStyles hugeStyles 20).map setItemCount = [0, 1] :=
  ⟨rfl, rfl⟩

set_option maxRecDepth 1000000 in
/-- Witness for the amended C5 at a concrete input. -/
theorem chunk_planner_oversized_isolated_witness :
    shouldChunkStyles (compressStylesForAI hugeStyles) 20 = true
    ∧ ((∀ ch ∈ (chunkStyles hugeStyles 20).tail, 0 < setItemCount ch)
       ∧ (∀ ch ∈ chunkStyles hugeStyles 20, ∀ c : Category, ∀ o ∈ getCatS ch c,
           20 < countTokens (jserialize o) →
             (∀ c' : Category, getCatS ch c' = if c' = c then [o] else [])
             ∧ 20 < countTokens (jserialize (setToJson ch)))) :=
  ⟨rfl, chunk_planner_oversized_isolated hugeStyles 20 rfl⟩

end Figtree
